import Mathlib

/-!
Verification of the "dynamic image generator" (`src/main.py`) against its
natural-language specification.

The program is a single linear pipeline (`CreateImage` in `main.py`):
validate the font path, load the font, create a white canvas, estimate a
per-line character budget from an average glyph width, wrap the text,
grow the canvas if needed, draw the lines and save the file, plus an
interactive driver loop at module level.

Modelling conventions:
- Python strings are `String` / `List Char`; Python ints are `Int`;
  Python float arithmetic in `calculate_max_chars_per_line` is modelled
  as exact rational arithmetic over `ℚ` (the only float computation is a
  division of small integer quantities, exact at the counterexamples
  used below); `int(x)` on a float is truncation toward zero (`pytrunc`).
- `textwrap.wrap` (CPython, default `TextWrapper` options as used by
  `main.py`) is modelled from the library's documented algorithm:
  whitespace munging (`expandtabs` with tab size 8, then replacing each
  of the six ASCII whitespace characters by a space), splitting into
  maximal whitespace/word chunks, and greedy line filling with
  `drop_whitespace` and `break_long_words` behaviour, raising
  `ValueError` when the width is not positive.  The hyphen-aware chunk
  refinements of the default word separator (`break_on_hyphens`) are not
  modelled; no claim concerns hyphenated input.  "Whitespace" means the
  six ASCII whitespace characters of `textwrap._whitespace`.
- Effects (font loading, canvas creation, drawing, saving) are recorded
  as an explicit event trace; exceptions are `Except` values.
- Pixel contents of the canvas are not modelled (no claim concerns
  them); a canvas is its width and height.
-/

/-- Characters of CPython `textwrap._whitespace` (`'\t\n\x0b\x0c\r '`),
the whitespace alphabet used by `textwrap` for munging and for the
`str.strip` tests inside `_wrap_chunks`. -/
def isPyWS (c : Char) : Bool :=
  c == '\t' || c == '\n' || c == '\x0B' || c == '\x0C' || c == '\r' || c == ' '

/-- Model of Python `str.expandtabs(8)` as used by `textwrap`'s
`_munge_whitespace`: each tab becomes spaces up to the next multiple of
the tab size, and the column counter resets after a newline or carriage
return. -/
def expandtabsGo (tabsize : Nat) : Nat → List Char → List Char
  | _, [] => []
  | col, c :: cs =>
    if c = '\t' then
      List.replicate (tabsize - col % tabsize) ' ' ++
        expandtabsGo tabsize (col + (tabsize - col % tabsize)) cs
    else if c = '\n' ∨ c = '\r' then c :: expandtabsGo tabsize 0 cs
    else c :: expandtabsGo tabsize (col + 1) cs

/-- Model of `TextWrapper._munge_whitespace` with the default options
(`expand_tabs=True`, `replace_whitespace=True`): expand tabs, then map
every `textwrap` whitespace character to a plain space. -/
def munge (l : List Char) : List Char :=
  (expandtabsGo 8 0 l).map (fun c => if isPyWS c then ' ' else c)

/-- Model of `TextWrapper._split` restricted to inputs without hyphens:
the munged text is cut into maximal runs of whitespace and maximal runs
of non-whitespace characters (the chunks of the wrapping algorithm). -/
def runs : List Char → List (List Char)
  | [] => []
  | c :: cs =>
    match runs cs with
    | [] => [[c]]
    | r :: rs =>
      match r.head? with
      | some d => if isPyWS c = isPyWS d then (c :: r) :: rs else [c] :: r :: rs
      | none => [c] :: rs

/-- Model of `chunk.strip() == ''` inside `_wrap_chunks`: the chunk
consists only of whitespace characters (an empty chunk counts). -/
def chunkIsWS (c : List Char) : Bool :=
  c.all (fun ch => isPyWS ch)

/-- Greedy prefix filling of `_wrap_chunks`' inner `while` loop: pop
chunks onto the current line while the accumulated length stays within
the width; returns the taken chunks and the remaining ones. -/
def takeFill (width : Nat) : Nat → List (List Char) → List (List Char) × List (List Char)
  | _, [] => ([], [])
  | curLen, c :: cs =>
    if curLen + c.length ≤ width then
      let p := takeFill width (curLen + c.length) cs
      (c :: p.1, p.2)
    else ([], c :: cs)

/-- Total character count of a chunk list (`sum(map(len, cur_line))`). -/
def sumLen (l : List (List Char)) : Nat :=
  (l.map List.length).sum

/-- Model of `TextWrapper._wrap_chunks` with the default options
(`drop_whitespace=True`, `break_long_words=True`, empty indents, no
`max_lines`), fuel-indexed.  One recursive step builds one output line:
drop a leading whitespace chunk once a line has been emitted, fill the
line greedily, break an over-long word (`_handle_long_word` without the
hyphen refinement), drop a trailing all-whitespace chunk, and emit the
line if it is non-empty.  The `started` flag models `lines` being
non-empty. -/
def wrapChunksGo (width : Nat) : Nat → List (List Char) → Bool → List (List Char)
  | 0, _, _ => []
  | _ + 1, [], _ => []
  | fuel + 1, c :: cs, started =>
    let chunks := if started && chunkIsWS c then cs else c :: cs
    let p := takeFill width 0 chunks
    let q : List (List Char) × List (List Char) :=
      match p.2 with
      | [] => (p.1, [])
      | r :: rs =>
        if width < r.length then
          let spaceLeft := if width < 1 then 1 else width - sumLen p.1
          (p.1 ++ [r.take spaceLeft], r.drop spaceLeft :: rs)
        else (p.1, r :: rs)
    let curLine :=
      match q.1.getLast? with
      | some last => if chunkIsWS last then q.1.dropLast else q.1
      | none => q.1
    if curLine.isEmpty then wrapChunksGo width fuel q.2 started
    else curLine.flatten :: wrapChunksGo width fuel q.2 true

/-- Model of `textwrap.wrap(line, width)` for a positive width: munge
the whitespace, split into chunks, and run the greedy wrapper.  The
fuel `length + 1` is enough because every recursive step of
`wrapChunksGo` consumes at least one character. -/
def pyWrapCore (seg : List Char) (width : Int) : List String :=
  (wrapChunksGo width.toNat ((munge seg).length + 1) (runs (munge seg)) false).map
    List.asString

/-- Python exception values that the pipeline of `main.py` can surface. -/
inductive PyError where
  | fileNotFound (msg : String)
  | valueError (msg : String)
  | zeroDivision (msg : String)
deriving DecidableEq, Repr

/-- Model of `textwrap.wrap(line, width)` including the `ValueError`
that `_wrap_chunks` raises for a non-positive width. -/
def textwrapWrap (seg : List Char) (width : Int) : Except PyError (List String) :=
  if width ≤ 0 then
    .error (.valueError ("invalid width " ++ toString width ++ " (must be > 0)"))
  else .ok (pyWrapCore seg width)

/-- Model of Python `text.split('\x7bnewline\x7d')` (`str.split` with an
explicit separator): every newline is a cut point and empty pieces are
kept, so the empty text yields one empty segment. -/
def splitNl : List Char → List (List Char)
  | [] => [[]]
  | c :: cs =>
    match splitNl cs with
    | [] => [[]]
    | s :: rest => if c = '\n' then [] :: s :: rest else (c :: s) :: rest

/-- Per-segment wrapped output on the success path of
`CreateImage.wrap_text` (`main.py` line 85): an empty segment
contributes a single empty line, any other segment contributes its
`textwrap.wrap` output. -/
def wrapSegment (w : Int) (seg : List Char) : List String :=
  if seg = [] then [""] else pyWrapCore seg w

/-- The loop body of `CreateImage.wrap_text` (`main.py` lines 82-86):
extend the accumulated list segment by segment; a raised `ValueError`
aborts the whole call. -/
def wrapSegsE : List (List Char) → Int → Except PyError (List String)
  | [], _ => .ok []
  | seg :: rest, w =>
    match (if seg = [] then Except.ok [""] else textwrapWrap seg w) with
    | .error e => .error e
    | .ok ls =>
      match wrapSegsE rest w with
      | .error e => .error e
      | .ok more => .ok (ls ++ more)

/-- Model of `CreateImage.wrap_text` (`main.py` lines 72-86): split the
text on literal newlines, then wrap each segment. -/
def wrap_text (text : String) (maxChars : Int) : Except PyError (List String) :=
  wrapSegsE (splitNl text.data) maxChars

/-- The fixed probe string of `calculate_max_chars_per_line`
(`main.py` line 67). -/
def probeString : String :=
  "ABCDEFGHIJKLMNOPQRSTUVWXYZabcdefghijklmnopqrstuvwxyz"

/-- Truncation toward zero, the behaviour of Python `int()` applied to
a float, modelled on exact rationals. -/
def pytrunc (q : ℚ) : ℤ :=
  if q < 0 then -⌊-q⌋ else ⌊q⌋

/-- Model of `CreateImage.calculate_max_chars_per_line` (`main.py`
lines 59-70).  `total_width` is the value of
`font.getbbox(test_string)[2]` for the loaded font; the division by the
probe length and the division of the margin-adjusted width are Python
float divisions, modelled exactly over `ℚ`; the outer `int()` truncates
toward zero.  A zero probe width makes the second division a float
division by zero, which raises `ZeroDivisionError` in Python. -/
def calculate_max_chars_per_line (total_width : ℕ) (initial_width margin : ℤ) :
    Except PyError ℤ :=
  if total_width = 0 then .error (.zeroDivision "float division by zero")
  else
    .ok (pytrunc (((initial_width : ℚ) - 2 * (margin : ℚ)) /
      ((total_width : ℚ) / (probeString.length : ℚ))))

/-- Fixed inter-line spacing of the renderer (`self.line_spacing`,
`main.py` line 37). -/
def line_spacing : ℤ := 5

/-- Fixed top offset of the renderer (`self.default_y_position`,
`main.py` line 38). -/
def default_y_position : ℤ := 10

/-- Model of `CreateImage.calculate_total_height` (`main.py`
lines 88-98). -/
def calculate_total_height (font_size : ℤ) (wrapped_lines : List String) : ℤ :=
  default_y_position + (wrapped_lines.length : ℤ) * (font_size + line_spacing)

/-- A PIL image, modelled by its dimensions. -/
structure PyImage where
  width : ℤ
  height : ℤ
deriving DecidableEq, Repr

/-- Model of `CreateImage.create_base_image` (`main.py` lines 48-57):
a fresh canvas at the initial dimensions. -/
def create_base_image (initial_width initial_height : ℤ) : PyImage :=
  { width := initial_width, height := initial_height }

/-- Model of `CreateImage.adjust_image_size` (`main.py` lines 100-113):
resize to `(initial_width, required_height)` when the required height
exceeds the initial height, otherwise return the image unchanged. -/
def adjust_image_size (initial_width initial_height : ℤ) (image : PyImage)
    (required_height : ℤ) : PyImage :=
  if required_height > initial_height then
    { width := initial_width, height := required_height }
  else image

/-- One drawing call of `CreateImage.draw_text`, fuel by recursion on
the remaining lines: the cursor starts at the given `y` and advances by
`font_size + line_spacing` after each line (`main.py` lines 123-126). -/
def drawTextGo (margin font_size : ℤ) : ℤ → List String → List (ℤ × ℤ × String)
  | _, [] => []
  | y, l :: ls => (margin, y, l) :: drawTextGo margin font_size (y + font_size + line_spacing) ls

/-- Model of `CreateImage.draw_text` (`main.py` lines 115-126): the
list of `draw.text` calls, each given as (x, y, line). -/
def draw_text (margin font_size : ℤ) (wrapped_lines : List String) :
    List (ℤ × ℤ × String) :=
  drawTextGo margin font_size default_y_position wrapped_lines

/-- Observable effects of one render, in program order. -/
inductive Event where
  | fontLoaded
  | canvasCreated
  | lineDrawn (x y : ℤ) (s : String)
  | imageSaved (path : String)
deriving DecidableEq, Repr

/-- The external world as `main.py` observes it: `os.path.exists`, and
the probe measurement `font.getbbox(test_string)[2]` of the font loaded
from a given path at a given size. -/
structure Env where
  pathExists : String → Bool
  fontProbeWidth : String → ℤ → ℕ

/-- A Render Request: the constructor arguments of `CreateImage`
(`main.py` lines 17-36). -/
structure RenderConfig where
  text : String
  font_path : String
  font_size : ℤ
  output_image_path : String
  margin : ℤ
  initial_width : ℤ
  initial_height : ℤ

/-- A Render Request with the constructor defaults of `CreateImage`
(margin 10, initial size 800x600), as the interactive driver builds it. -/
def mkConfig (text font_path : String) (font_size : ℤ) (output_image_path : String) :
    RenderConfig :=
  { text := text, font_path := font_path, font_size := font_size,
    output_image_path := output_image_path, margin := 10,
    initial_width := 800, initial_height := 600 }

/-- Model of one full render: `CreateImage(...)` construction
(`validate_font_path`, then the font load, `main.py` lines 40-46)
followed by `CreateImage.main` (`main.py` lines 137-150).  Returns the
final image or the raised exception, together with the trace of
observable effects in program order. -/
def render (env : Env) (cfg : RenderConfig) : Except PyError PyImage × List Event :=
  if env.pathExists cfg.font_path then
    match calculate_max_chars_per_line (env.fontProbeWidth cfg.font_path cfg.font_size)
        cfg.initial_width cfg.margin with
    | .error e => (.error e, [.fontLoaded, .canvasCreated])
    | .ok maxChars =>
      match wrap_text cfg.text maxChars with
      | .error e => (.error e, [.fontLoaded, .canvasCreated])
      | .ok lines =>
        (.ok (adjust_image_size cfg.initial_width cfg.initial_height
            (create_base_image cfg.initial_width cfg.initial_height)
            (calculate_total_height cfg.font_size lines)),
          [.fontLoaded, .canvasCreated] ++
            (draw_text cfg.margin cfg.font_size lines).map
              (fun t => Event.lineDrawn t.1 t.2.1 t.2.2) ++
            [.imageSaved cfg.output_image_path])
  else
    (.error (.fileNotFound ("Font file \x27" ++ cfg.font_path ++ "\x27 not found.")), [])

/-- Model of Python `str.strip()` restricted to the six ASCII
whitespace characters: drop whitespace from both ends. -/
def pyStrip (s : String) : String :=
  (((s.data.dropWhile fun c => isPyWS c).reverse.dropWhile fun c => isPyWS c).reverse).asString

/-- Model of Python `str.lower()` on ASCII text. -/
def pyLower (s : String) : String :=
  (s.data.map Char.toLower).asString

/-- Outcome of one iteration of the interactive driver loop. -/
inductive DriverOutcome where
  | exited
  | rejected
  | saved (path : String)
  | failed (e : PyError)
deriving DecidableEq, Repr

/-- Model of one iteration of the `__main__` loop of `main.py`
(lines 165-195): strip the entry, exit on `"exit"`, reject an empty
entry without rendering, otherwise render to
`output_image_<counter>.jpg` and advance the counter only on success.
Returns the outcome, the new counter and the trace of effects. -/
def driverStep (env : Env) (counter : ℕ) (rawInput : String) :
    DriverOutcome × ℕ × List Event :=
  if pyLower (pyStrip rawInput) = "exit" then (.exited, counter, [])
  else if pyStrip rawInput = "" then (.rejected, counter, [])
  else
    match render env (mkConfig (pyStrip rawInput) "arial.ttf" 20
        ("output_image_" ++ toString counter ++ ".jpg")) with
    | (.ok _, evs) => (.saved ("output_image_" ++ toString counter ++ ".jpg"), counter + 1, evs)
    | (.error e, evs) => (.failed e, counter, evs)

/-- Decidable equality for `Except`, used to evaluate the model on
concrete inputs. -/
instance {ε α : Type} [DecidableEq ε] [DecidableEq α] : DecidableEq (Except ε α) := fun a b =>
  match a, b with
  | .error e, .error f =>
    if h : e = f then .isTrue (by rw [h]) else .isFalse (by intro hh; cases hh; exact h rfl)
  | .ok x, .ok y =>
    if h : x = y then .isTrue (by rw [h]) else .isFalse (by intro hh; cases hh; exact h rfl)
  | .error _, .ok _ => .isFalse (by intro h; cases h)
  | .ok _, .error _ => .isFalse (by intro h; cases h)

/-- The probe string has the 52 upper- and lowercase Latin letters. -/
theorem probeString_length : probeString.length = 52 := rfl

/-- Truncation toward zero is monotone. -/
theorem pytrunc_mono (q1 q2 : ℚ) (h : q1 ≤ q2) : pytrunc q1 ≤ pytrunc q2 := by
  unfold pytrunc
  by_cases h1 : q1 < 0 <;> by_cases h2 : q2 < 0
  · rw [if_pos h1, if_pos h2]
    exact neg_le_neg (Int.floor_le_floor (by linarith))
  · rw [if_pos h1, if_neg h2]
    have ha : (0 : ℤ) ≤ ⌊-q1⌋ := Int.floor_nonneg.mpr (by linarith)
    have hb : (0 : ℤ) ≤ ⌊q2⌋ := Int.floor_nonneg.mpr (by linarith)
    omega
  · exact absurd (lt_of_le_of_lt h h2) h1
  · rw [if_neg h1, if_neg h2]
    exact Int.floor_le_floor h

/-- On nonnegative rationals truncation toward zero agrees with floor. -/
theorem pytrunc_eq_floor (q : ℚ) (h : 0 ≤ q) : pytrunc q = ⌊q⌋ := by
  unfold pytrunc
  rw [if_neg (not_lt.mpr h)]

/-- Claim C2 fails on the code: with probe width 156 (average glyph
width 3), canvas width 10 and margin 10, the code computes
`int(-10 / 3.0) = -3`, while the claimed `floor` is `-4`. -/
theorem capacity_floor_counterexample_c2 :
    calculate_max_chars_per_line 156 10 10 = .ok (-3) ∧
    ⌊(((10 : ℚ) - 2 * (10 : ℚ)) / ((156 : ℚ) / (probeString.length : ℚ)))⌋ = -4 ∧
    (-3 : ℤ) ≠ -4 := by
  refine ⟨?_, ?_, by decide⟩
  · simp only [calculate_max_chars_per_line, probeString_length]
    norm_num [pytrunc]
  · have hl : ((probeString.length : ℕ) : ℚ) = 52 := by norm_num [probeString_length]
    rw [hl]
    norm_num

/-- Claim C2, amended: for every loaded font (probe width `total`),
margin and canvas width, `calculate_max_chars_per_line` returns the
truncation toward zero of `(canvas_width - 2*margin) / avg`, where
`avg` is the probe-string width divided by its 52-character length;
this agrees with the claimed `floor` whenever `2*margin ≤ canvas_width`
(in particular for every nonnegative available width). -/
theorem capacity_trunc_c2_amended (total : ℕ) (W m : ℤ) (htotal : 0 < total) :
    calculate_max_chars_per_line total W m =
      .ok (pytrunc (((W : ℚ) - 2 * (m : ℚ)) / ((total : ℚ) / (probeString.length : ℚ)))) ∧
    (2 * m ≤ W →
      calculate_max_chars_per_line total W m =
        .ok ⌊((W : ℚ) - 2 * (m : ℚ)) / ((total : ℚ) / (probeString.length : ℚ))⌋) := by
  have hne : total ≠ 0 := Nat.pos_iff_ne_zero.mp htotal
  constructor
  · simp only [calculate_max_chars_per_line, if_neg hne]
  · intro hm
    simp only [calculate_max_chars_per_line, if_neg hne]
    have hnum : (0 : ℚ) ≤ (W : ℚ) - 2 * (m : ℚ) := by
      have h2 : ((2 * m : ℤ) : ℚ) ≤ ((W : ℤ) : ℚ) := by exact_mod_cast hm
      push_cast at h2
      linarith
    have hden : (0 : ℚ) ≤ (total : ℚ) / (probeString.length : ℚ) := by
      apply div_nonneg <;> positivity
    rw [pytrunc_eq_floor _ (div_nonneg hnum hden)]

/-- Witness for the amended claim C2 at probe width 52, canvas width 30
and margin 5. -/
theorem capacity_trunc_c2_amended_witness :
    calculate_max_chars_per_line 52 30 5 =
      .ok (pytrunc (((30 : ℚ) - 2 * ((5 : ℤ) : ℚ)) / ((52 : ℚ) / (probeString.length : ℚ)))) ∧
    calculate_max_chars_per_line 52 30 5 =
      .ok ⌊(((30 : ℚ) - 2 * ((5 : ℤ) : ℚ)) / ((52 : ℚ) / (probeString.length : ℚ)))⌋ := by
  constructor
  · exact (capacity_trunc_c2_amended 52 30 5 (by decide)).1
  · exact (capacity_trunc_c2_amended 52 30 5 (by decide)).2 (by decide)

/-- Claim C5: the computed required height is
`top_offset + line_count * (font_size + line_spacing)` with a top
offset of 10 pixels and a line spacing of 5 pixels. -/
theorem calculate_total_height_formula_c5 (font_size : ℤ) (wrapped_lines : List String) :
    calculate_total_height font_size wrapped_lines =
      10 + (wrapped_lines.length : ℤ) * (font_size + 5) := rfl

/-- Claim C7: for a fixed font (probe width) and margin, the computed
max-characters-per-line is monotone non-decreasing in the canvas
width. -/
theorem capacity_monotone_c7 (total : ℕ) (m W1 W2 c1 c2 : ℤ) (htotal : 0 < total)
    (hW : W1 ≤ W2)
    (h1 : calculate_max_chars_per_line total W1 m = .ok c1)
    (h2 : calculate_max_chars_per_line total W2 m = .ok c2) : c1 ≤ c2 := by
  have hne : total ≠ 0 := Nat.pos_iff_ne_zero.mp htotal
  simp only [calculate_max_chars_per_line, if_neg hne, Except.ok.injEq] at h1 h2
  subst h1
  subst h2
  apply pytrunc_mono
  have hden : (0 : ℚ) < (total : ℚ) / (probeString.length : ℚ) := by
    apply div_pos
    · exact_mod_cast htotal
    · rw [probeString_length]; norm_num
  have hnum : ((W1 : ℚ) - 2 * (m : ℚ)) ≤ ((W2 : ℚ) - 2 * (m : ℚ)) := by
    have : (W1 : ℚ) ≤ (W2 : ℚ) := by exact_mod_cast hW
    linarith
  gcongr

/-- Witness for claim C7 at probe width 52, margin 10, widths 100 and
200 (capacities 80 and 180). -/
theorem capacity_monotone_c7_witness : (80 : ℤ) ≤ 180 :=
  capacity_monotone_c7 52 10 100 200 80 180 (by decide) (by decide)
    (by simp only [calculate_max_chars_per_line, probeString_length]; norm_num [pytrunc])
    (by simp only [calculate_max_chars_per_line, probeString_length]; norm_num [pytrunc])

/-- The number of drawing calls equals the number of lines. -/
theorem drawTextGo_length (margin font_size : ℤ) :
    ∀ (L : List String) (y : ℤ), (drawTextGo margin font_size y L).length = L.length := by
  intro L
  induction L with
  | nil => intro y; rfl
  | cons l ls ih => intro y; simp [drawTextGo, ih]

/-- Position of the k-th drawing call of `drawTextGo`: x is the margin
and y advances by `font_size + 5` per line from the start offset. -/
theorem drawTextGo_getElem (margin font_size : ℤ) :
    ∀ (L : List String) (y : ℤ) (k : ℕ),
    (drawTextGo margin font_size y L)[k]? =
      (L[k]?).map (fun s => (margin, y + (k : ℤ) * (font_size + 5), s)) := by
  intro L
  induction L with
  | nil => intro y k; simp [drawTextGo]
  | cons l ls ih =>
    intro y k
    cases k with
    | zero => simp [drawTextGo]
    | succ k =>
      simp only [drawTextGo, List.getElem?_cons_succ]
      rw [ih]
      cases h : ls[k]? with
      | none => simp
      | some s =>
        simp only [Option.map_some']
        have harith : y + font_size + line_spacing + (k : ℤ) * (font_size + 5) =
            y + ((k + 1 : ℕ) : ℤ) * (font_size + 5) := by
          simp only [line_spacing]
          push_cast
          ring
        rw [harith]

/-- Claim C6: `draw_text` issues exactly one drawing call per wrapped
line, each at x = margin, and the k-th call (0-indexed) is at
y = top_offset + k * (font_size + line_spacing) = 10 + k * (font_size + 5). -/
theorem draw_text_layout_c6 (margin font_size : ℤ) (wrapped_lines : List String) :
    (draw_text margin font_size wrapped_lines).length = wrapped_lines.length ∧
    ∀ k : ℕ, (draw_text margin font_size wrapped_lines)[k]? =
      (wrapped_lines[k]?).map (fun s => (margin, 10 + (k : ℤ) * (font_size + 5), s)) := by
  constructor
  · exact drawTextGo_length margin font_size wrapped_lines default_y_position
  · intro k
    have h := drawTextGo_getElem margin font_size wrapped_lines default_y_position k
    simpa [default_y_position] using h

/-- Claim C4: when the font path does not exist, the render fails with
a file-not-found error whose message names the missing path, and the
trace is empty: in particular neither a font load nor a canvas creation
has happened. -/
theorem render_font_missing_c4 (env : Env) (cfg : RenderConfig)
    (h : env.pathExists cfg.font_path = false) :
    render env cfg =
      (.error (.fileNotFound ("Font file \x27" ++ cfg.font_path ++ "\x27 not found.")), []) ∧
    Event.fontLoaded ∉ (render env cfg).2 ∧ Event.canvasCreated ∉ (render env cfg).2 := by
  have h1 : render env cfg =
      (.error (.fileNotFound ("Font file \x27" ++ cfg.font_path ++ "\x27 not found.")), []) := by
    simp [render, h]
  refine ⟨h1, ?_, ?_⟩ <;> rw [h1] <;> simp

/-- Witness for claim C4 on an environment with no files. -/
theorem render_font_missing_c4_witness :
    render ⟨fun _ => false, fun _ _ => 0⟩ (mkConfig "hi" "missing.ttf" 20 "o.jpg") =
      (.error (.fileNotFound ("Font file \x27" ++ "missing.ttf" ++ "\x27 not found.")), []) ∧
    Event.fontLoaded ∉ (render ⟨fun _ => false, fun _ _ => 0⟩
      (mkConfig "hi" "missing.ttf" 20 "o.jpg")).2 ∧
    Event.canvasCreated ∉ (render ⟨fun _ => false, fun _ _ => 0⟩
      (mkConfig "hi" "missing.ttf" 20 "o.jpg")).2 :=
  render_font_missing_c4 ⟨fun _ => false, fun _ _ => 0⟩ (mkConfig "hi" "missing.ttf" 20 "o.jpg") rfl

/-- Claim C3: for a render that reaches the drawing stage, the final
canvas keeps the initial width; its height is the computed required
height exactly when that exceeds the initial height, and the canvas is
exactly the initial one otherwise. -/
theorem render_final_dims_c3 (env : Env) (cfg : RenderConfig) (maxC : ℤ) (lines : List String)
    (hpath : env.pathExists cfg.font_path = true)
    (hcap : calculate_max_chars_per_line (env.fontProbeWidth cfg.font_path cfg.font_size)
      cfg.initial_width cfg.margin = .ok maxC)
    (hwrap : wrap_text cfg.text maxC = .ok lines) :
    ∃ img : PyImage, (render env cfg).1 = .ok img ∧
      img.width = cfg.initial_width ∧
      (cfg.initial_height < calculate_total_height cfg.font_size lines →
        img.height = calculate_total_height cfg.font_size lines) ∧
      (calculate_total_height cfg.font_size lines ≤ cfg.initial_height →
        img = create_base_image cfg.initial_width cfg.initial_height) := by
  refine ⟨adjust_image_size cfg.initial_width cfg.initial_height
    (create_base_image cfg.initial_width cfg.initial_height)
    (calculate_total_height cfg.font_size lines), ?_, ?_, ?_, ?_⟩
  · simp [render, hpath, hcap, hwrap]
  · unfold adjust_image_size create_base_image
    split <;> rfl
  · intro hgt
    unfold adjust_image_size
    rw [if_pos hgt]
  · intro hle
    unfold adjust_image_size
    rw [if_neg (not_lt.mpr hle)]

/-- Witness for claim C3: a one-line text on the default 800x600
canvas needs height 35, so the final canvas is the initial one. -/
theorem render_final_dims_c3_witness :
    ∃ img : PyImage,
      (render ⟨fun _ => true, fun _ _ => 52⟩ (mkConfig "hello" "arial.ttf" 20 "o.jpg")).1 =
        .ok img ∧
      img.width = (mkConfig "hello" "arial.ttf" 20 "o.jpg").initial_width ∧
      ((mkConfig "hello" "arial.ttf" 20 "o.jpg").initial_height <
          calculate_total_height (mkConfig "hello" "arial.ttf" 20 "o.jpg").font_size ["hello"] →
        img.height =
          calculate_total_height (mkConfig "hello" "arial.ttf" 20 "o.jpg").font_size ["hello"]) ∧
      (calculate_total_height (mkConfig "hello" "arial.ttf" 20 "o.jpg").font_size ["hello"] ≤
          (mkConfig "hello" "arial.ttf" 20 "o.jpg").initial_height →
        img = create_base_image (mkConfig "hello" "arial.ttf" 20 "o.jpg").initial_width
          (mkConfig "hello" "arial.ttf" 20 "o.jpg").initial_height) :=
  render_final_dims_c3 ⟨fun _ => true, fun _ _ => 52⟩ (mkConfig "hello" "arial.ttf" 20 "o.jpg")
    780 ["hello"] rfl
    (by simp only [calculate_max_chars_per_line, probeString_length, mkConfig]
        norm_num [pytrunc])
    (by decide)

/-- A non-positive width makes `wrap_text`'s loop raise `ValueError` at
the first non-empty segment, aborting the whole call. -/
theorem wrapSegsE_err (w : ℤ) (hw : w ≤ 0) :
    ∀ segs : List (List Char), (∃ s ∈ segs, s ≠ []) →
    wrapSegsE segs w =
      .error (.valueError ("invalid width " ++ toString w ++ " (must be > 0)")) := by
  intro segs
  induction segs with
  | nil =>
    rintro ⟨s, hs, _⟩
    cases hs
  | cons seg rest ih =>
    rintro ⟨s, hs, hne⟩
    by_cases hseg : seg = []
    · have hrest : ∃ t ∈ rest, t ≠ [] := by
        rcases List.mem_cons.mp hs with h | h
        · exact absurd hseg (by rw [← h]; exact hne)
        · exact ⟨s, h, hne⟩
      simp only [wrapSegsE, if_pos hseg]
      rw [ih hrest]
    · simp only [wrapSegsE, if_neg hseg, textwrapWrap, if_pos hw]

/-- Claim C10: when the computed per-line capacity is non-positive and
the text has a non-empty segment, the render fails with the wrapping
`ValueError`; the trace shows the font load and the canvas creation but
no drawn line and no saved file. -/
theorem render_valueerror_c10 (env : Env) (cfg : RenderConfig) (maxC : ℤ)
    (hpath : env.pathExists cfg.font_path = true)
    (hcap : calculate_max_chars_per_line (env.fontProbeWidth cfg.font_path cfg.font_size)
      cfg.initial_width cfg.margin = .ok maxC)
    (hneg : maxC ≤ 0)
    (hseg : ∃ s ∈ splitNl cfg.text.data, s ≠ []) :
    render env cfg =
      (.error (.valueError ("invalid width " ++ toString maxC ++ " (must be > 0)")),
        [Event.fontLoaded, Event.canvasCreated]) := by
  have hwrap : wrap_text cfg.text maxC =
      .error (.valueError ("invalid width " ++ toString maxC ++ " (must be > 0)")) :=
    wrapSegsE_err maxC hneg _ hseg
  simp [render, hpath, hcap, hwrap]

/-- Witness for claim C10: canvas width 10 with margin 10 gives
capacity -10, and rendering "hi" fails during wrapping. -/
theorem render_valueerror_c10_witness :
    render ⟨fun _ => true, fun _ _ => 52⟩ ⟨"hi", "arial.ttf", 20, "o.jpg", 10, 10, 600⟩ =
      (.error (.valueError ("invalid width " ++ toString (-10 : ℤ) ++ " (must be > 0)")),
        [Event.fontLoaded, Event.canvasCreated]) :=
  render_valueerror_c10 ⟨fun _ => true, fun _ _ => 52⟩ ⟨"hi", "arial.ttf", 20, "o.jpg", 10, 10, 600⟩
    (-10) rfl
    (by simp only [calculate_max_chars_per_line, probeString_length]
        norm_num [pytrunc])
    (by decide) (by decide)

/-- With a positive width the wrapping loop never raises: the result is
the concatenation of the per-segment outputs. -/
theorem wrapSegsE_ok (w : ℤ) (hw : 1 ≤ w) :
    ∀ segs : List (List Char),
    wrapSegsE segs w = .ok ((segs.map (wrapSegment w)).flatten) := by
  intro segs
  induction segs with
  | nil => rfl
  | cons seg rest ih =>
    by_cases hseg : seg = []
    · simp only [wrapSegsE, if_pos hseg, ih]
      simp [wrapSegment, hseg]
    · have hnle : ¬ w ≤ 0 := by omega
      simp only [wrapSegsE, if_neg hseg, textwrapWrap, if_neg hnle, ih]
      simp [wrapSegment, hseg]

/-- Claim C1: `wrap_text` splits on literal newlines and an empty
segment contributes exactly one empty wrapped line at its position; in
particular `"a\n\nb"` with ample capacity wraps to `["a", "", "b"]`. -/
theorem wrap_text_preserves_empty_segments_c1 :
    (∀ (text : String) (w : ℤ) (i : ℕ), 1 ≤ w →
      ∀ h : i < (splitNl text.data).length, (splitNl text.data).get ⟨i, h⟩ = [] →
      wrap_text text w = .ok
        ((((splitNl text.data).take i).map (wrapSegment w)).flatten ++ [""] ++
          (((splitNl text.data).drop (i + 1)).map (wrapSegment w)).flatten)) ∧
    wrap_text "a\n\nb" 100 = .ok ["a", "", "b"] := by
  constructor
  · intro text w i hw h hempty
    have hok := wrapSegsE_ok w hw (splitNl text.data)
    have hd : (splitNl text.data).drop i = [] :: (splitNl text.data).drop (i + 1) := by
      rw [← List.getElem_cons_drop (splitNl text.data) i h]
      simp only [List.get_eq_getElem] at hempty
      rw [hempty]
    have hsplit : splitNl text.data =
        (splitNl text.data).take i ++ [] :: (splitNl text.data).drop (i + 1) := by
      conv_lhs => rw [← List.take_append_drop i (splitNl text.data)]
      rw [hd]
    show wrapSegsE (splitNl text.data) w = _
    rw [hok]
    congr 1
    conv_lhs => rw [hsplit]
    simp [wrapSegment]
  · rfl

/-- Witness for claim C1 at the input of the spec's example, with the
empty middle segment at index 1. -/
theorem wrap_text_preserves_empty_segments_c1_witness :
    wrap_text "a\n\nb" 100 = .ok
      ((((splitNl "a\n\nb".data).take 1).map (wrapSegment 100)).flatten ++ [""] ++
        (((splitNl "a\n\nb".data).drop (1 + 1)).map (wrapSegment 100)).flatten) :=
  wrap_text_preserves_empty_segments_c1.1 "a\n\nb" 100 1 (by decide) (by decide) (by decide)

/-- `wrapChunksGo` on an empty chunk list yields no lines. -/
theorem wrapChunksGo_nil (width fuel : ℕ) (b : Bool) : wrapChunksGo width fuel [] b = [] := by
  cases fuel <;> rfl

/-- `List.all` restricts along sublists given by `⊆`. -/
theorem all_sub {p : Char → Bool} {l1 l2 : List Char} (hsub : l1 ⊆ l2)
    (h : l2.all p = true) : l1.all p = true := by
  rw [List.all_eq_true] at h ⊢
  exact fun x hx => h x (hsub hx)

/-- Tab expansion keeps an all-whitespace text all-whitespace. -/
theorem expandtabsGo_ws : ∀ (l : List Char) (col : ℕ), l.all isPyWS = true →
    (expandtabsGo 8 col l).all isPyWS = true := by
  intro l
  induction l with
  | nil => intro col _; rfl
  | cons c cs ih =>
    intro col hall
    obtain ⟨hc, hcs⟩ : isPyWS c = true ∧ cs.all isPyWS = true := by simpa using hall
    by_cases h1 : c = '\t'
    · simp only [expandtabsGo, if_pos h1, List.all_append, Bool.and_eq_true]
      refine ⟨?_, ih _ hcs⟩
      rw [List.all_eq_true]
      intro x hx
      rw [List.eq_of_mem_replicate hx]
      rfl
    · by_cases h2 : c = '\n' ∨ c = '\r'
      · simp only [expandtabsGo, if_neg h1, if_pos h2, List.all_cons, Bool.and_eq_true]
        exact ⟨hc, ih 0 hcs⟩
      · simp only [expandtabsGo, if_neg h1, if_neg h2, List.all_cons, Bool.and_eq_true]
        exact ⟨hc, ih (col + 1) hcs⟩

/-- Munging keeps an all-whitespace text all-whitespace (indeed it
turns it into spaces). -/
theorem munge_ws (l : List Char) (h : l.all isPyWS = true) : (munge l).all isPyWS = true := by
  have he := expandtabsGo_ws l 0 h
  rw [munge, List.all_map, List.all_eq_true]
  intro x hx
  have hxws := List.all_eq_true.mp he x hx
  simp only [Function.comp, hxws, if_pos]
  decide

/-- A non-empty text whose characters all belong to one whitespace
class forms a single chunk. -/
theorem runs_all_ws : ∀ l : List Char, l ≠ [] → l.all isPyWS = true → runs l = [l] := by
  intro l
  induction l with
  | nil => intro h _; exact absurd rfl h
  | cons c cs ih =>
    intro _ hall
    obtain ⟨hc, hcs⟩ : isPyWS c = true ∧ cs.all isPyWS = true := by simpa using hall
    cases cs with
    | nil => rfl
    | cons d ds =>
      have hrec : runs (d :: ds) = [d :: ds] := ih (by simp) hcs
      have hd : isPyWS d = true := by
        obtain ⟨hd, _⟩ : isPyWS d = true ∧ ds.all isPyWS = true := by simpa using hcs
        exact hd
      have hstep : runs (c :: d :: ds) =
          match runs (d :: ds) with
          | [] => [[c]]
          | r :: rs =>
            match r.head? with
            | some d2 => if isPyWS c = isPyWS d2 then (c :: r) :: rs else [c] :: r :: rs
            | none => [c] :: rs := rfl
      rw [hstep, hrec]
      simp [hc, hd]

/-- Key step for claim C9: a single all-whitespace chunk produces no
output line, for any positive width, because `drop_whitespace` removes
it (possibly piecewise, via the long-word breaker). -/
theorem wrapChunksGo_ws (w : ℕ) (hw : 1 ≤ w) :
    ∀ (fuel : ℕ) (c : List Char) (b : Bool), c.length < fuel → c.all isPyWS = true →
    wrapChunksGo w fuel [c] b = [] := by
  intro fuel
  induction fuel with
  | zero => intro c b h1 _; exact absurd h1 (Nat.not_lt_zero _)
  | succ n ih =>
    intro c b hlen hws
    have hcws : chunkIsWS c = true := hws
    cases b with
    | true =>
      simp [wrapChunksGo, takeFill, hcws, wrapChunksGo_nil]
    | false =>
      by_cases hfit : c.length ≤ w
      · simp [wrapChunksGo, takeFill, hfit, hcws, wrapChunksGo_nil]
      · have hlt : w < c.length := Nat.lt_of_not_le hfit
        have hw1 : ¬ w < 1 := by omega
        have htake : chunkIsWS (c.take w) = true := all_sub (List.take_subset w c) hws
        have hdropall : (c.drop w).all isPyWS = true := all_sub (List.drop_subset w c) hws
        have hrec : wrapChunksGo w n [c.drop w] false = [] := by
          apply ih (c.drop w) false ?_ hdropall
          rw [List.length_drop]
          omega
        simp [wrapChunksGo, takeFill, hfit, hlt, hw1, htake, hcws, sumLen, hrec]

/-- An all-whitespace segment wraps to no lines at any positive width. -/
theorem pyWrapCore_ws (seg : List Char) (w : ℤ) (hw : 1 ≤ w)
    (hall : seg.all isPyWS = true) : pyWrapCore seg w = [] := by
  have hm := munge_ws seg hall
  by_cases hme : munge seg = []
  · unfold pyWrapCore
    rw [hme]
    rfl
  · unfold pyWrapCore
    rw [runs_all_ws (munge seg) hme hm]
    rw [wrapChunksGo_ws w.toNat (by omega) ((munge seg).length + 1) (munge seg) false
      (by omega) hm]
    rfl

/-- Claim C9: a segment between newline boundaries that is non-empty
but all-whitespace contributes zero wrapped lines, so the output can
have fewer lines than the source; in particular `"a\n \nb"` with ample
capacity wraps to `["a", "b"]`. -/
theorem wrap_text_drops_ws_segments_c9 :
    (∀ (text : String) (w : ℤ) (i : ℕ), 1 ≤ w →
      ∀ h : i < (splitNl text.data).length,
      (splitNl text.data).get ⟨i, h⟩ ≠ [] →
      ((splitNl text.data).get ⟨i, h⟩).all isPyWS = true →
      wrap_text text w = .ok
        ((((splitNl text.data).take i).map (wrapSegment w)).flatten ++
          (((splitNl text.data).drop (i + 1)).map (wrapSegment w)).flatten)) ∧
    wrap_text "a\n \nb" 100 = .ok ["a", "b"] := by
  constructor
  · intro text w i hw h hne hws
    have hok := wrapSegsE_ok w hw (splitNl text.data)
    have hd : (splitNl text.data).drop i =
        (splitNl text.data).get ⟨i, h⟩ :: (splitNl text.data).drop (i + 1) := by
      rw [← List.getElem_cons_drop (splitNl text.data) i h]
      rfl
    have hsplit : splitNl text.data =
        (splitNl text.data).take i ++
          (splitNl text.data).get ⟨i, h⟩ :: (splitNl text.data).drop (i + 1) := by
      conv_lhs => rw [← List.take_append_drop i (splitNl text.data)]
      rw [hd]
    have hmid : wrapSegment w ((splitNl text.data).get ⟨i, h⟩) = [] := by
      rw [wrapSegment, if_neg hne]
      exact pyWrapCore_ws _ w hw hws
    show wrapSegsE (splitNl text.data) w = _
    rw [hok]
    congr 1
    conv_lhs => rw [hsplit]
    rw [List.map_append, List.map_cons, List.flatten_append, List.flatten_cons, hmid]
    simp
  · rfl

/-- Witness for claim C9 at `"a\n \nb"`, whose segment at index 1 is
the non-empty whitespace-only `" "`. -/
theorem wrap_text_drops_ws_segments_c9_witness :
    wrap_text "a\n \nb" 100 = .ok
      ((((splitNl "a\n \nb".data).take 1).map (wrapSegment 100)).flatten ++
        (((splitNl "a\n \nb".data).drop (1 + 1)).map (wrapSegment 100)).flatten) :=
  wrap_text_drops_ws_segments_c9.1 "a\n \nb" 100 1 (by decide) (by decide) (by decide) (by decide)

/-- Stripping an all-whitespace entry yields the empty string. -/
theorem pyStrip_ws (raw : String) (h : raw.data.all isPyWS = true) : pyStrip raw = "" := by
  rw [pyStrip]
  have h1 : raw.data.dropWhile (fun c => isPyWS c) = [] := by
    rw [List.dropWhile_eq_nil_iff]
    intro x hx
    exact List.all_eq_true.mp h x hx
  rw [h1]
  rfl

/-- Claim C8: an entry that is empty or all-whitespace is rejected by
the interactive driver: no render is attempted (empty trace, hence no
file saved), the counter is unchanged, and the loop is not exited. -/
theorem driver_rejects_blank_c8 (env : Env) (counter : ℕ) (raw : String)
    (h : raw.data.all isPyWS = true) :
    driverStep env counter raw = (.rejected, counter, []) := by
  have hs : pyStrip raw = "" := pyStrip_ws raw h
  rw [driverStep, hs]
  rw [show pyLower "" = "" from rfl]
  rw [if_neg (by decide), if_pos rfl]

/-- Witness for claim C8 on the whitespace entry `" \t "`. -/
theorem driver_rejects_blank_c8_witness :
    driverStep ⟨fun _ => false, fun _ _ => 0⟩ 3 " \t " = (.rejected, 3, []) :=
  driver_rejects_blank_c8 ⟨fun _ => false, fun _ _ => 0⟩ 3 " \t " (by decide)
